import Mathlib

/-!
Verification of the structural-integrity and chunked free-fall core of
`excavation-site-alpha` (src/modes/playing/mod.rs, src/modes/playing/blocks.rs).

The embedding is shallow: the sparse `HashMap<ICoord, Block>` grid is an
association list with first-match lookup; `f32`/`f64` break chances and masses
are exact rationals (every constant in the source — 1.0, 5.0, 0.3/60.0, /2.0,
*0.1 — is used here with its exact rational value); `isize` is `Int`.
Coordinates follow the source convention: y grows downward, so "directly
above" a coordinate is y - 1 and "directly below" is y + 1.
-/

/-- Signed integer 2-D coordinate (`cogs_gamedev::int_coords::ICoord`). -/
structure ICoord where
  x : Int
  y : Int
deriving DecidableEq, Repr

/-- The four cardinal directions (`cogs_gamedev::directions::Direction4`),
in the declaration order used to index the connector array. -/
inductive Direction4 where
  | north
  | east
  | south
  | west
deriving DecidableEq, Repr

/-- Unit displacement of a direction, screen convention (y grows downward):
north is (0, -1), south is (0, 1). -/
def Direction4.deltas : Direction4 → ICoord
  | .north => ⟨0, -1⟩
  | .east => ⟨1, 0⟩
  | .south => ⟨0, 1⟩
  | .west => ⟨-1, 0⟩

/-- The opposite direction (`Direction4::flip`). -/
def Direction4.flip : Direction4 → Direction4
  | .north => .south
  | .east => .west
  | .south => .north
  | .west => .east

/-- The constant `Direction4::DIRECTIONS`, the four directions in index order. -/
def Direction4.DIRECTIONS : List Direction4 :=
  [.north, .east, .south, .west]

/-- Coordinate addition, `ICoord + ICoord`. -/
def ICoord.add (a b : ICoord) : ICoord :=
  ⟨a.x + b.x, a.y + b.y⟩

/-- Shape of a connector on the side of a block (`ConnectorShape`). -/
inductive ConnectorShape where
  | square
  | round
  | pointy
deriving DecidableEq, Repr

/-- A connector: a shape plus whether it protrudes (`Connector`). -/
structure Connector where
  shape : ConnectorShape
  sticks_out : Bool
deriving DecidableEq, Repr

/-- The rule `Connector::links_with`: shapes match and exactly one of the two
protrudes. -/
def Connector.links_with (a other : Connector) : Bool :=
  a.shape = other.shape && a.sticks_out != other.sticks_out

/-- The three block kinds (`BlockKind`). -/
inductive BlockKind where
  | scaffold
  | solid
  | anchor
deriving DecidableEq, Repr

/-- A placed block (`Block`): per-side optional connectors (indexed by
direction, embedding the `[Option<Connector>; 4]` array keyed by
`Direction4 as usize`), a kind, and a damage counter. -/
structure Block where
  connectors : Direction4 → Option Connector
  kind : BlockKind
  damage : Nat

/-- Mass per `Block::mass`: Scaffold 1.0, Solid 5.0, Anchor 0.0, as exact rationals. -/
def Block.mass (b : Block) : ℚ :=
  match b.kind with
  | .scaffold => 1
  | .solid => 5
  | .anchor => 0

/-- Removability per `Block::is_removable`. -/
def Block.is_removable (b : Block) : Bool :=
  match b.kind with
  | .scaffold => true
  | .solid => false
  | .anchor => false

/-- Damage tolerance per `Block::resilience`. -/
def Block.resilience (b : Block) : Nat :=
  match b.kind with
  | .scaffold => 8
  | .solid => 16
  | .anchor => 64

/-- The `CHASM_WIDTH` constant from mod.rs. -/
def CHASM_WIDTH : Int := 9

/-- Position validity per `Block::is_valid_pos`: anchors only at the two wall columns
(|x| = CHASM_WIDTH / 2 + 1 = 5), every other kind strictly inside the chasm
(|x| < 5); y must be ≥ 0 (at or below the ground line). -/
def Block.is_valid_pos (b : Block) (pos : ICoord) : Bool :=
  let valid_x :=
    match b.kind with
    | .anchor => pos.x.natAbs = (CHASM_WIDTH / 2 + 1).toNat
    | _ => (pos.x.natAbs : Int) < CHASM_WIDTH / 2 + 1
  valid_x && 0 ≤ pos.y

/-- The sparse grid of stable blocks (`stable_blocks: HashMap<ICoord, Block>`),
modelled as an association list with first-match lookup. -/
def Grid : Type := List (ICoord × Block)

/-- Lookup, `HashMap::get`: first-match lookup. -/
def Grid.lookup (g : Grid) (p : ICoord) : Option Block :=
  (List.find? (fun pc => pc.1 = p) g).map (fun pc => pc.2)

/-- Occupancy test, `HashMap::contains_key`. -/
def Grid.containsKey (g : Grid) (p : ICoord) : Bool :=
  (g.lookup p).isSome

/-- Insertion, `HashMap::insert`, on a key known to be absent (the only way the
simulation inserts during re-attachment). -/
def Grid.insert (g : Grid) (p : ICoord) (b : Block) : Grid :=
  (p, b) :: g

/-- Bonding test `ModePlaying::would_link`: the block one step from `position` in the
`facing` direction, if present, has a connector on the facing side that
links with `connector`; absence of a neighbor or connector gives false. -/
def would_link (g : Grid) (position : ICoord) (connector : Connector)
    (facing : Direction4) : Bool :=
  match g.lookup (position.add facing.deltas) with
  | some block =>
    match block.connectors facing.flip with
    | some conn => conn.links_with connector
    | none => false
  | none => false

/-- The predicate `ModePlaying::is_stable_anchorless`: the block rests on an occupied cell
directly below (y + 1), or some side's connector would link. -/
def is_stable_anchorless (g : Grid) (pos : ICoord) (block : Block) : Bool :=
  (g.lookup (pos.add ⟨0, 1⟩)).isSome ||
    Direction4.DIRECTIONS.any (fun dir =>
      match block.connectors dir with
      | some conn => would_link g pos conn dir
      | none => false)

/-- The predicate `ModePlaying::is_stable`: anchors are stable anywhere; otherwise the
anchorless bonding/resting predicate. -/
def is_stable (g : Grid) (pos : ICoord) (block : Block) : Bool :=
  block.kind = BlockKind.anchor || is_stable_anchorless g pos block

/-- The test `ModePlaying::can_anchor_be_placed`: the cell directly above (y - 1) is
occupied, or the anchor already satisfies the bonding/resting predicate. -/
def can_anchor_be_placed (g : Grid) (pos : ICoord) (block : Block) : Bool :=
  g.containsKey (pos.add ⟨0, -1⟩) || is_stable_anchorless g pos block

/-- The placement acceptance test of `ModePlaying::handle_input` (the drop
branch): position valid, anchors additionally anchored, and the target cell
unoccupied. -/
def placementAccepted (g : Grid) (block : Block) (blockpos : ICoord) : Bool :=
  let valid_pos := block.is_valid_pos blockpos
  let anchored_ok :=
    if block.kind = BlockKind.anchor then can_anchor_be_placed g blockpos block
    else true
  valid_pos && anchored_ok && !(g.containsKey blockpos)

/-- The table `BREAK_CHANCES` from mod.rs: chance a block takes damage per cadence tick,
indexed by the number of sides that link; exact rationals for the `f64`
constants `[0.0, 0.3/60.0, 1.0/60.0, 1.5/60.0, 3.0/60.0]`. -/
def BREAK_CHANCES : List ℚ :=
  [0, 0.3 / 60, 1.0 / 60, 1.5 / 60, 3.0 / 60]

/-- The live bond count computed in `ModePlaying::update` (lines 147-156):
the number of the four directions whose connector exists and `would_link`s. -/
def link_count (g : Grid) (pos : ICoord) (block : Block) : Nat :=
  (Direction4.DIRECTIONS.filter (fun dir =>
    match block.connectors dir with
    | some conn => would_link g pos conn dir
    | none => false)).length

/-- The per-block break chance after the wall modifier (lines 157-161):
`BREAK_CHANCES[link_count]`, halved when `pos.x.abs() > CHASM_WIDTH / 2`.
`link_count ≤ 4` always, so the `getD` default is never reached. -/
def wall_adjusted_chance (g : Grid) (pos : ICoord) (block : Block) : ℚ :=
  let c := BREAK_CHANCES.getD (link_count g pos block) 0
  if CHASM_WIDTH / 2 < (pos.x.natAbs : Int) then c / 2 else c

/-- A depth row is complete (lines 174-183): every index `0..CHASM_WIDTH`,
shifted to column `idx - CHASM_WIDTH / 2`, is occupied at that depth. -/
def row_full (g : Grid) (depth : Int) : Bool :=
  (List.range CHASM_WIDTH.toNat).all (fun idx =>
    g.containsKey ⟨(idx : Int) - CHASM_WIDTH / 2, depth⟩)

/-- The final per-cadence break chance (lines 185-188): the wall-adjusted
chance, multiplied by 0.1 when the block's own depth row is complete. (For a
coordinate holding a block, membership of `pos.y` in `depths_with_rows` is
exactly `row_full`, since every key's depth is in `present_depths`.) -/
def break_chance (g : Grid) (pos : ICoord) (block : Block) : ℚ :=
  let c := wall_adjusted_chance g pos block
  if row_full g pos.y then c * 0.1 else c

/-- Total mass accumulated over the grid iteration (`masses`, line 146). -/
def totalMass (g : Grid) : ℚ :=
  (List.map (fun pb : ICoord × Block => pb.2.mass) g).sum

/-- Mass-weighted depth sum (`superposes`, line 145). -/
def superposes (g : Grid) : ℚ :=
  (List.map (fun pb : ICoord × Block => (pb.1.y : ℚ) * pb.2.mass) g).sum

/-- The field update `center_of_mass` (lines 167-172): 0 when the total mass is 0, otherwise
the quotient. -/
def center_of_mass (g : Grid) : ℚ :=
  if totalMass g = 0 then 0 else superposes g / totalMass g

/-- The connect test of the flood fill (mod.rs lines 224-230): both facing
connectors present and linking. -/
def fillConnects (b nb : Block) (dir : Direction4) : Bool :=
  match b.connectors dir, nb.connectors dir.flip with
  | some a, some c => a.links_with c
  | _, _ => false

/-- The closure computed by the anchor-seeded worklist of
`ModePlaying::update` (lines 204-238), i.e. membership in the final
`stable_poses` set. Seeds are the coordinates of Anchor blocks; a popped
coordinate is added to the set, and — only when a block is present there —
the coordinate directly above it (y - 1) and any South/East/West neighbor
whose facing connectors link are pushed in turn. -/
inductive Supported (g : Grid) : ICoord → Prop where
  | anchor (p : ICoord) (b : Block) (hb : Grid.lookup g p = some b)
      (hk : b.kind = BlockKind.anchor) : Supported g p
  | above (p : ICoord) (b : Block) (hp : Supported g p)
      (hb : Grid.lookup g p = some b) : Supported g (p.add ⟨0, -1⟩)
  | bond (p : ICoord) (b : Block) (dir : Direction4) (nb : Block)
      (hp : Supported g p) (hb : Grid.lookup g p = some b)
      (hd : dir ∈ [Direction4.south, Direction4.east, Direction4.west])
      (hn : Grid.lookup g (p.add dir.deltas) = some nb)
      (hc : fillConnects b nb dir = true) : Supported g (p.add dir.deltas)

/-- The extraction predicate of the `drain_filter` at lines 240-243: a grid
entry whose coordinate is not in `stable_poses` leaves the grid for the
tick's new falling chunk. -/
def extractedToChunk (g : Grid) (p : ICoord) : Prop :=
  (Grid.lookup g p).isSome = true ∧ ¬ Supported g p

/-- Outcome of the per-chunk scan (the `Removal` enum at lines 263-267). -/
inductive Removal where
  | keep
  | delete
  | insertWithDelta (delta : Int)
deriving DecidableEq, Repr

/-- The `0..delta` loop range as integers. -/
def diffsList (delta : Int) : List Int :=
  (List.range delta.toNat).map (fun n => (n : Int))

/-- The inner `for diff in 0..delta` loop (lines 275-289) for one member
block: threads the `removal` accumulator (set to `keep` whenever a passed
row is above the discard bound) and breaks out with `insertWithDelta` at
the first diff whose row is stable; the Bool records the `break 'block`. -/
def scanDiffs (g : Grid) (bound dyi : Int) (pos : ICoord) (block : Block) :
    List Int → Removal → Removal × Bool
  | [], removal => (removal, false)
  | diff :: rest, removal =>
    let passed_y := pos.y + dyi - diff
    let removal1 := if passed_y < bound then Removal.keep else removal
    if is_stable g ⟨pos.x, passed_y⟩ block then
      (Removal.insertWithDelta (dyi - diff), true)
    else
      scanDiffs g bound dyi pos block rest removal1

/-- The outer `for faller_idx in (0..len).rev()` loop (lines 272-290) over
the already-reversed member list. -/
def scanBlocks (g : Grid) (bound dyi delta : Int) :
    List (ICoord × Block) → Removal → Removal
  | [], removal => removal
  | (pos, block) :: rest, removal =>
    match scanDiffs g bound dyi pos block (diffsList delta) removal with
    | (removal1, true) => removal1
    | (removal1, false) => scanBlocks g bound dyi delta rest removal1

/-- The whole per-chunk scan of `ModePlaying::update` (lines 255-290):
members in reverse order, starting from `Removal::Delete`. `dyi` is the
truncated post-advance `chunk.dy`, `delta = dyi - (old_dyi - 1)` the number
of scanned rows, and `bound = max_depth + BOTTOM_VIEW_SIZE * 2`. -/
def chunkScan (g : Grid) (bound dyi delta : Int)
    (blocks : List (ICoord × Block)) : Removal :=
  scanBlocks g bound dyi delta blocks.reverse Removal.delete

/-- Follows the spec's words, for comparison with `chunkScan`: scan the
crossed rows from the chunk's pre-advance position downward (diff =
delta-1, delta-2, ..., 0); the first row at which some member block
satisfies the stability predicate gives the commit offset. -/
def specFirstRowOffset (g : Grid) (dyi delta : Int)
    (blocks : List (ICoord × Block)) : Option Int :=
  (List.map (fun n => (n : Int)) (List.range delta.toNat).reverse).findSome?
    (fun diff =>
      if blocks.any (fun pb => is_stable g ⟨pb.1.x, pb.1.y + dyi - diff⟩ pb.2)
      then some (dyi - diff) else none)

/-- The first (member, row) hit in the order the code's scan visits them:
members in reverse order, and for each member the crossed rows from the
deepest (diff = 0) upward. -/
def codeFirstHit (g : Grid) (dyi delta : Int)
    (blocks : List (ICoord × Block)) : Option Int :=
  blocks.reverse.findSome? (fun pb =>
    (diffsList delta).findSome? (fun diff =>
      if is_stable g ⟨pb.1.x, pb.1.y + dyi - diff⟩ pb.2
      then some (dyi - diff) else none))

/-- The keep/delete accumulator left by a member's diff loop when no row is
stable (the non-breaking path of lines 275-289). -/
def scanKeep (bound dyi : Int) (pos : ICoord) :
    List Int → Removal → Removal
  | [], removal => removal
  | diff :: rest, removal =>
    scanKeep bound dyi pos rest
      (if pos.y + dyi - diff < bound then Removal.keep else removal)

/-- The commit of a re-attaching chunk (`Removal::InsertWithDelta` arm,
lines 297-307): every member is inserted at `pos + (0, delta)` unless that
cell is already occupied, in which case the member is dropped (the source
logs `voided {:?}` as its diagnostic) and the grid keeps the occupant. -/
def commitChunk (g : Grid) (blocks : List (ICoord × Block))
    (delta : Int) : Grid :=
  blocks.foldl (fun gacc pb =>
    let adj_pos := pb.1.add ⟨0, delta⟩
    if Grid.containsKey gacc adj_pos then gacc
    else Grid.insert gacc adj_pos pb.2) g

/-- A connectorless Scaffold block (all four connector sides absent). -/
def blockPlain : Block :=
  ⟨fun _ => none, BlockKind.scaffold, 0⟩

/-- A connectorless Solid block. -/
def blockSolidPlain : Block :=
  ⟨fun _ => none, BlockKind.solid, 0⟩

/-- A connectorless Anchor block. -/
def blockAnchor : Block :=
  ⟨fun _ => none, BlockKind.anchor, 0⟩

/-- Scaffold with a single recessed Square connector on its West side. -/
def blockWestIn : Block :=
  ⟨fun d => if d = Direction4.west then some ⟨ConnectorShape.square, false⟩
    else none, BlockKind.scaffold, 0⟩

/-- Scaffold with a single protruding Square connector on its East side. -/
def blockEastOut : Block :=
  ⟨fun d => if d = Direction4.east then some ⟨ConnectorShape.square, true⟩
    else none, BlockKind.scaffold, 0⟩

/-- Scaffold with a single protruding Square connector on its West side. -/
def blockWestOut : Block :=
  ⟨fun d => if d = Direction4.west then some ⟨ConnectorShape.square, true⟩
    else none, BlockKind.scaffold, 0⟩

/-- Scaffold with a single recessed Square connector on its East side. -/
def blockEastIn : Block :=
  ⟨fun d => if d = Direction4.east then some ⟨ConnectorShape.square, false⟩
    else none, BlockKind.scaffold, 0⟩

/-- Anchor with a single protruding Square connector on its West side, the
shape of the wall-embedded anchors created in `ModePlaying::new`. -/
def blockAnchorWest : Block :=
  ⟨fun d => if d = Direction4.west then some ⟨ConnectorShape.square, true⟩
    else none, BlockKind.anchor, 0⟩

/-- Two bonded wall-side columns at x = 1, rows 1 and 2: a falling block in
column 0 can bond to either while passing. -/
def gTwoRows : Grid :=
  [(⟨1, 1⟩, blockWestIn), (⟨1, 2⟩, blockWestIn)]

/-- A grid holding two bonded pairs on row 0: one pair hugging the chasm
wall (columns 3 and 4), one pair in the middle (columns -1 and 0). -/
def gFlush : Grid :=
  [(⟨4, 0⟩, blockWestOut), (⟨3, 0⟩, blockEastIn),
   (⟨0, 0⟩, blockWestOut), (⟨-1, 0⟩, blockEastIn)]

/-- A grid with a bonded anchor in the wall column x = 5 and a bonded
scaffold pair in the middle, each with live bond count 1. -/
def gWallCol : Grid :=
  [(⟨5, 0⟩, blockAnchorWest), (⟨4, 0⟩, blockEastIn),
   (⟨0, 0⟩, blockWestOut), (⟨-1, 0⟩, blockEastIn)]

/-- Row 0 fully occupied across the chasm (columns -4..4) with a bonded
pair at columns -1 and 0, plus an identical bonded pair in the incomplete
row 5. -/
def gFullRow : Grid :=
  [(⟨-4, 0⟩, blockPlain), (⟨-3, 0⟩, blockPlain), (⟨-2, 0⟩, blockPlain),
   (⟨-1, 0⟩, blockEastIn), (⟨0, 0⟩, blockWestOut), (⟨1, 0⟩, blockPlain),
   (⟨2, 0⟩, blockPlain), (⟨3, 0⟩, blockPlain), (⟨4, 0⟩, blockPlain),
   (⟨1, 5⟩, blockEastIn), (⟨2, 5⟩, blockWestOut)]

/-- An anchor at (0, 1) with a connectorless scaffold resting on it. -/
def gResting : Grid :=
  [(⟨0, 1⟩, blockAnchor), (⟨0, 0⟩, blockPlain)]

/-- A lone block already occupying (0, 3). -/
def gOccupied : Grid :=
  [(⟨0, 3⟩, blockPlain)]

/-- A two-member chunk: with offset 2, the member from (0, 1) collides with
the occupant of (0, 3) while the member from (0, 0) lands free at (0, 2). -/
def chunkTwo : List (ICoord × Block) :=
  [(⟨0, 1⟩, blockSolidPlain), (⟨0, 0⟩, blockSolidPlain)]

/-- A grid of two wall anchors only: total mass 0. -/
def gAnchorsOnly : Grid :=
  [(⟨5, 0⟩, blockAnchor), (⟨-5, 0⟩, blockAnchor)]

/-- A lone block at (5, 1), giving resting support to an anchor dropped at
(5, 0). -/
def gBelowWall : Grid :=
  [(⟨5, 1⟩, blockPlain)]

/-- C9: `links_with` is the stated conjunction, hence symmetric. -/
theorem links_with_iff_and_symm (a b : Connector) :
    (a.links_with b = true ↔ a.shape = b.shape ∧ a.sticks_out ≠ b.sticks_out) ∧
    a.links_with b = b.links_with a := by
  constructor
  · simp [Connector.links_with, Bool.and_eq_true, bne_iff_ne]
  · simp only [Connector.links_with]
    rcases a with ⟨sa, pa⟩
    rcases b with ⟨sb, pb⟩
    simp only [decide_eq_true_eq]
    by_cases h : sa = sb
    · subst h
      cases pa <;> cases pb <;> rfl
    · have h2 : ¬ sb = sa := fun hh => h hh.symm
      simp [h, h2]

/-- C8: the placement path rejects an Anchor at any column other than the
two wall columns regardless of bonding; at a wall column with y ≥ 0 and a
free target cell, an Anchor is accepted iff the cell directly above is
occupied or the anchor satisfies the bonding/resting predicate there. -/
theorem anchor_placement_rule (g : Grid) (b : Block) (pos : ICoord)
    (hk : b.kind = BlockKind.anchor) :
    (¬ pos.x.natAbs = (CHASM_WIDTH / 2 + 1).toNat →
      placementAccepted g b pos = false) ∧
    (pos.x.natAbs = (CHASM_WIDTH / 2 + 1).toNat → 0 ≤ pos.y →
      Grid.lookup g pos = none →
      (placementAccepted g b pos = true ↔
        (Grid.containsKey g (pos.add ⟨0, -1⟩) = true ∨
          is_stable_anchorless g pos b = true))) := by
  constructor
  · intro hx
    simp [placementAccepted, Block.is_valid_pos, hk, hx]
  · intro hx hy hfree
    simp [placementAccepted, Block.is_valid_pos, hk, hx, hy,
      Grid.containsKey, hfree, can_anchor_be_placed, Bool.or_eq_true]

/-- Witness for C8 at concrete inputs: an anchor at the non-wall column 3 is
rejected, and one at wall column 5 above an occupied cell is accepted. -/
theorem anchor_placement_rule_witness :
    placementAccepted gBelowWall blockAnchor ⟨3, 0⟩ = false ∧
    placementAccepted gBelowWall blockAnchor ⟨5, 0⟩ = true :=
  ⟨(anchor_placement_rule gBelowWall blockAnchor ⟨3, 0⟩ rfl).1 (by decide),
   ((anchor_placement_rule gBelowWall blockAnchor ⟨5, 0⟩ rfl).2
      (by decide) (by decide) rfl).mpr (Or.inr (by decide))⟩

/-- C10: a non-Anchor block at an unoccupied coordinate strictly inside the
chasm width with y ≥ 0 is accepted by the placement path, with no bonding
or resting requirement. -/
theorem nonanchor_placement_accepted (g : Grid) (b : Block) (pos : ICoord)
    (hk : ¬ b.kind = BlockKind.anchor)
    (hx : (pos.x.natAbs : Int) < CHASM_WIDTH / 2 + 1)
    (hy : 0 ≤ pos.y)
    (hfree : Grid.lookup g pos = none) :
    placementAccepted g b pos = true := by
  have hx2 : |pos.x| < CHASM_WIDTH / 2 + 1 := by
    rw [Int.abs_eq_natAbs]
    exact hx
  cases hkind : b.kind
  case anchor => exact absurd hkind hk
  all_goals
    simp [placementAccepted, Block.is_valid_pos, hkind, hx, hx2, hy,
      Grid.containsKey, hfree]

/-- Witness for C10: a connectorless Scaffold dropped at (0, 0) on the empty
grid — no bond, no resting support — is accepted. -/
theorem nonanchor_placement_accepted_witness :
    placementAccepted ([] : Grid) blockPlain ⟨0, 0⟩ = true :=
  nonanchor_placement_accepted ([] : Grid) blockPlain ⟨0, 0⟩
    (by decide) (by decide) (by decide) rfl

/-- Helper: a grid whose entries are all anchors has total mass 0, since
`Block::mass` gives anchors mass 0. -/
theorem totalMass_anchors_zero (l : List (ICoord × Block))
    (h : List.all l (fun pb => pb.2.kind = BlockKind.anchor) = true) :
    totalMass l = 0 := by
  induction l with
  | nil => rfl
  | cons hd tl ih =>
    rw [List.all_cons, Bool.and_eq_true] at h
    have hk : hd.2.kind = BlockKind.anchor := by
      have := h.1
      simpa using this
    have ih2 := ih h.2
    simp only [totalMass, List.map_cons, List.sum_cons] at ih2 ⊢
    rw [ih2, Block.mass, hk]
    simp

/-- C7: the mass-weighted center of depth is exactly 0 whenever the total
mass is 0 — in particular when the grid holds only Anchor blocks, whose
mass is 0 — and the source's guard means the quotient is never formed in
that case. -/
theorem center_of_mass_zero_mass (g : Grid)
    (h : totalMass g = 0 ∨
      List.all g (fun pb => pb.2.kind = BlockKind.anchor) = true) :
    center_of_mass g = 0 := by
  have hm : totalMass g = 0 := by
    rcases h with h | h
    · exact h
    · exact totalMass_anchors_zero g h
  simp [center_of_mass, hm]

/-- Witness for C7: a grid of two wall anchors has center of depth 0. -/
theorem center_of_mass_zero_mass_witness :
    center_of_mass gAnchorsOnly = 0 :=
  center_of_mass_zero_mass gAnchorsOnly (Or.inr (by decide))

/-- C3: a block exactly one row directly above a supported block is itself
classified supported by the flood fill, with no condition on its
connectors (resting contact): the worklist pushes the coordinate directly
above every reachable occupied coordinate. -/
theorem resting_block_above_supported (g : Grid) (p : ICoord)
    (b bAbove : Block) (hsup : Supported g p)
    (hb : Grid.lookup g p = some b)
    (_hab : Grid.lookup g (p.add ⟨0, -1⟩) = some bAbove) :
    Supported g (p.add ⟨0, -1⟩) :=
  Supported.above p b hsup hb

/-- Witness for C3: a connectorless scaffold resting on an anchor is
supported. -/
theorem resting_block_above_supported_witness :
    Supported gResting (ICoord.add ⟨0, 1⟩ ⟨0, -1⟩) :=
  resting_block_above_supported gResting ⟨0, 1⟩ blockAnchor blockPlain
    (Supported.anchor ⟨0, 1⟩ blockAnchor rfl rfl) rfl rfl

/-- C4: every Anchor entry of the grid seeds the flood fill, so it is
classified supported and is never part of the set the `drain_filter`
extracts into the tick's falling chunk. -/
theorem anchors_supported_never_extracted (g : Grid) (p : ICoord)
    (b : Block) (hb : Grid.lookup g p = some b)
    (hk : b.kind = BlockKind.anchor) :
    Supported g p ∧ ¬ extractedToChunk g p :=
  ⟨Supported.anchor p b hb hk,
   fun h => h.2 (Supported.anchor p b hb hk)⟩

/-- Witness for C4: a wall anchor on a two-anchor grid is supported and not
extracted. -/
theorem anchors_supported_never_extracted_witness :
    Supported gAnchorsOnly ⟨5, 0⟩ ∧ ¬ extractedToChunk gAnchorsOnly ⟨5, 0⟩ :=
  anchors_supported_never_extracted gAnchorsOnly ⟨5, 0⟩ blockAnchor rfl rfl

/-- Counterexample to C2 as stated: in `gFlush`, the block at column 4 —
the outermost in-chasm column, flush against the chasm wall (wall columns
are |x| = 5) — has exactly the same live bond count, row status and
per-cadence break chance (0.3/60 = 1/200) as the otherwise-identical block
at column 0, not half of it: the code only halves for |x| > CHASM_WIDTH/2. -/
theorem wall_flush_not_halved :
    ((4 : Int).natAbs : Int) = CHASM_WIDTH / 2 ∧
    link_count gFlush ⟨4, 0⟩ blockWestOut =
      link_count gFlush ⟨0, 0⟩ blockWestOut ∧
    row_full gFlush (0 : Int) = false ∧
    break_chance gFlush ⟨4, 0⟩ blockWestOut = 1 / 200 ∧
    break_chance gFlush ⟨0, 0⟩ blockWestOut = 1 / 200 ∧
    break_chance gFlush ⟨4, 0⟩ blockWestOut ≠
      break_chance gFlush ⟨0, 0⟩ blockWestOut / 2 := by
  have h4 : link_count gFlush ⟨4, 0⟩ blockWestOut = 1 := by decide
  have h0 : link_count gFlush ⟨0, 0⟩ blockWestOut = 1 := by decide
  have hrow : row_full gFlush (0 : Int) = false := by decide
  have hw4 : ¬ CHASM_WIDTH / 2 < (((⟨4, 0⟩ : ICoord).x.natAbs : Int)) := by
    decide
  have hw0 : ¬ CHASM_WIDTH / 2 < (((⟨0, 0⟩ : ICoord).x.natAbs : Int)) := by
    decide
  have hc4 : break_chance gFlush ⟨4, 0⟩ blockWestOut = 1 / 200 := by
    simp only [break_chance, wall_adjusted_chance, h4, hrow, hw4, if_false,
      if_neg hw4, BREAK_CHANCES, List.getD]
    norm_num
  have hc0 : break_chance gFlush ⟨0, 0⟩ blockWestOut = 1 / 200 := by
    simp only [break_chance, wall_adjusted_chance, h0, hrow, hw0, if_false,
      if_neg hw0, BREAK_CHANCES, List.getD]
    norm_num
  refine ⟨by decide, h4.trans h0.symm, hrow, hc4, hc0, ?_⟩
  rw [hc4, hc0]
  norm_num

/-- C2 amended: the halving applies to blocks at the wall columns
themselves (|x| > CHASM_WIDTH / 2, i.e. |x| ≥ 5, where only anchors can
sit), relative to an otherwise-identical block (same live bond count, same
row-completeness status) anywhere inside the chasm. -/
theorem wall_column_halving (g : Grid) (p q : ICoord) (bp bq : Block)
    (hp : CHASM_WIDTH / 2 < (p.x.natAbs : Int))
    (hq : ¬ CHASM_WIDTH / 2 < (q.x.natAbs : Int))
    (hl : link_count g p bp = link_count g q bq)
    (hr : row_full g p.y = row_full g q.y) :
    break_chance g p bp = break_chance g q bq / 2 := by
  simp only [break_chance, wall_adjusted_chance, hl, hr, if_pos hp,
    if_neg hq]
  cases hrow : row_full g q.y
  · simp
  · simp
    ring

/-- Witness for the amended C2: the wall-column anchor at (5, 0) in
`gWallCol` has half the break chance of the bonded scaffold at (0, 0). -/
theorem wall_column_halving_witness :
    break_chance gWallCol ⟨5, 0⟩ blockAnchorWest =
      break_chance gWallCol ⟨0, 0⟩ blockWestOut / 2 :=
  wall_column_halving gWallCol ⟨5, 0⟩ ⟨0, 0⟩ blockAnchorWest blockWestOut
    (by decide) (by decide) (by decide) (by decide)

/-- C6: a block in a depth row that is fully occupied across the chasm
width has its per-cadence break chance multiplied by exactly 0.1 relative
to an otherwise-identical block (same live bond count, same wall status)
in an incomplete row. -/
theorem complete_row_tenth (g : Grid) (p q : ICoord) (bp bq : Block)
    (hl : link_count g p bp = link_count g q bq)
    (hw : CHASM_WIDTH / 2 < (p.x.natAbs : Int) ↔
      CHASM_WIDTH / 2 < (q.x.natAbs : Int))
    (hfp : row_full g p.y = true) (hfq : row_full g q.y = false) :
    break_chance g p bp = break_chance g q bq * 0.1 := by
  simp only [break_chance, wall_adjusted_chance, hl, hfp, hfq,
    if_true, if_false, Bool.false_eq_true, if_neg]
  by_cases hc : CHASM_WIDTH / 2 < (q.x.natAbs : Int)
  · rw [if_pos (hw.mpr hc), if_pos hc]
  · rw [if_neg (fun hh => hc (hw.mp hh)), if_neg hc]

/-- Witness for C6: the bonded block at (0, 0) of the complete row 0 in
`gFullRow` has 0.1 times the break chance of the identically-bonded block
at (2, 5) in the incomplete row 5. -/
theorem complete_row_tenth_witness :
    break_chance gFullRow ⟨0, 0⟩ blockWestOut =
      break_chance gFullRow ⟨2, 5⟩ blockWestOut * 0.1 :=
  complete_row_tenth gFullRow ⟨0, 0⟩ ⟨2, 5⟩ blockWestOut blockWestOut
    (by decide) (by decide) (by decide) (by decide)

/-- Helper: lookup after consing one entry. -/
theorem Grid.lookup_cons (q : ICoord) (b : Block) (g : Grid) (p : ICoord) :
    Grid.lookup ((q, b) :: g) p = if q = p then some b else Grid.lookup g p := by
  by_cases h : q = p
  · subst h
    simp [Grid.lookup, List.find?_cons_of_pos]
  · rw [if_neg h]
    have : (fun pc : ICoord × Block => decide (pc.1 = p)) (q, b) = false := by
      simp [h]
    simp [Grid.lookup, List.find?_cons_of_neg, this]

/-- Helper: adding the same offset to two distinct coordinates keeps them
distinct. -/
theorem ICoord.add_ne_add {a c : ICoord} (b : ICoord) (h : a ≠ c) :
    a.add b ≠ c.add b := by
  intro he
  apply h
  cases a
  cases c
  cases b
  simp only [ICoord.add, ICoord.mk.injEq] at he ⊢
  omega

/-- Helper: the commit loop never touches a cell that is already occupied,
whichever member blocks it processes. -/
theorem commitChunk_preserves_occupied (delta : Int) :
    ∀ (blocks : List (ICoord × Block)) (g : Grid) (p : ICoord),
      (Grid.lookup g p).isSome = true →
      Grid.lookup (commitChunk g blocks delta) p = Grid.lookup g p := by
  intro blocks
  induction blocks with
  | nil => intro g p _; rfl
  | cons hd tl ih =>
    intro g p hp
    show Grid.lookup (commitChunk _ tl delta) p = Grid.lookup g p
    by_cases hc : Grid.containsKey g (hd.1.add ⟨0, delta⟩) = true
    · simp only [commitChunk, List.foldl_cons, hc, if_true]
      exact ih g p hp
    · have hne : hd.1.add ⟨0, delta⟩ ≠ p := by
        intro he
        rw [he] at hc
        exact hc (by simpa [Grid.containsKey] using hp)
      simp only [commitChunk, List.foldl_cons, hc, if_false, Bool.false_eq_true,
        Grid.insert]
      have hlk : Grid.lookup ((hd.1.add ⟨0, delta⟩, hd.2) :: g) p
          = Grid.lookup g p := by
        rw [Grid.lookup_cons, if_neg hne]
      rw [← hlk] at hp ⊢
      exact ih _ p hp

/-- Helper: a member whose target cell is free in the pre-commit grid, with
all member coordinates pairwise distinct, ends up inserted at its target. -/
theorem commitChunk_inserts_free (delta : Int) :
    ∀ (blocks : List (ICoord × Block)) (g : Grid) (pos : ICoord) (b : Block),
      (pos, b) ∈ blocks →
      (List.map Prod.fst blocks).Nodup →
      Grid.lookup g (pos.add ⟨0, delta⟩) = none →
      Grid.lookup (commitChunk g blocks delta) (pos.add ⟨0, delta⟩) = some b := by
  intro blocks
  induction blocks with
  | nil =>
    intro g pos b hmem
    exact absurd hmem (List.not_mem_nil (pos, b))
  | cons hd tl ih =>
    intro g pos b hmem hnodup hfree
    rw [List.map_cons, List.nodup_cons] at hnodup
    rcases List.mem_cons.mp hmem with heq | htl
    · subst heq
      have hc : ¬ Grid.containsKey g (pos.add ⟨0, delta⟩) = true := by
        simp [Grid.containsKey, hfree]
      simp only [commitChunk, List.foldl_cons, hc, if_false, Bool.false_eq_true,
        Grid.insert]
      have hocc : (Grid.lookup ((pos.add ⟨0, delta⟩, b) :: g)
          (pos.add ⟨0, delta⟩)).isSome = true := by
        rw [Grid.lookup_cons, if_pos rfl]
        rfl
      have hres := commitChunk_preserves_occupied delta tl
        ((pos.add ⟨0, delta⟩, b) :: g) (pos.add ⟨0, delta⟩) hocc
      show Grid.lookup (commitChunk ((pos.add ⟨0, delta⟩, b) :: g) tl delta)
          (pos.add ⟨0, delta⟩) = some b
      rw [hres, Grid.lookup_cons, if_pos rfl]
    · have hne : hd.1 ≠ pos := by
        intro he
        apply hnodup.1
        rw [he]
        exact List.mem_map_of_mem Prod.fst htl
      have hnet : hd.1.add ⟨0, delta⟩ ≠ pos.add ⟨0, delta⟩ :=
        ICoord.add_ne_add ⟨0, delta⟩ hne
      by_cases hc : Grid.containsKey g (hd.1.add ⟨0, delta⟩) = true
      · simp only [commitChunk, List.foldl_cons, hc, if_true]
        exact ih g pos b htl hnodup.2 hfree
      · simp only [commitChunk, List.foldl_cons, hc, if_false, Bool.false_eq_true,
          Grid.insert]
        have hfree2 : Grid.lookup ((hd.1.add ⟨0, delta⟩, hd.2) :: g)
            (pos.add ⟨0, delta⟩) = none := by
          rw [Grid.lookup_cons, if_neg hnet]
          exact hfree
        exact ih _ pos b htl hnodup.2 hfree2

/-- C5: committing a chunk at a winning offset never overwrites an occupied
cell (the colliding member is dropped, with a logged diagnostic in the
source), while every member whose target cell is free is inserted; the
operation is a total function — no panic path exists. -/
theorem commitChunk_discards_collisions_keeps_rest (g : Grid)
    (blocks : List (ICoord × Block)) (delta : Int)
    (hnodup : (List.map Prod.fst blocks).Nodup) :
    (∀ p : ICoord, (Grid.lookup g p).isSome = true →
      Grid.lookup (commitChunk g blocks delta) p = Grid.lookup g p) ∧
    (∀ (pos : ICoord) (b : Block), (pos, b) ∈ blocks →
      Grid.lookup g (pos.add ⟨0, delta⟩) = none →
      Grid.lookup (commitChunk g blocks delta) (pos.add ⟨0, delta⟩) = some b) :=
  ⟨fun p hp => commitChunk_preserves_occupied delta blocks g p hp,
   fun pos b hmem hfree =>
     commitChunk_inserts_free delta blocks g pos b hmem hnodup hfree⟩

/-- Witness for C5: committing `chunkTwo` at offset 2 over `gOccupied`
keeps the occupant of (0, 3) — the colliding member is dropped — and
inserts the other member at (0, 2). -/
theorem commitChunk_discards_collisions_keeps_rest_witness :
    Grid.lookup (commitChunk gOccupied chunkTwo 2) ⟨0, 3⟩
      = Grid.lookup gOccupied ⟨0, 3⟩ ∧
    Grid.lookup (commitChunk gOccupied chunkTwo 2)
      (ICoord.add ⟨0, 0⟩ ⟨0, 2⟩) = some blockSolidPlain :=
  ⟨(commitChunk_discards_collisions_keeps_rest gOccupied chunkTwo 2
      (by decide)).1 ⟨0, 3⟩ rfl,
   (commitChunk_discards_collisions_keeps_rest gOccupied chunkTwo 2
      (by decide)).2 ⟨0, 0⟩ blockSolidPlain
      (List.Mem.tail _ (List.Mem.head _)) rfl⟩

/-- Helper: one member's diff loop either breaks at the first stable diff,
yielding that insert offset, or completes having only made keep/delete
accumulator updates. -/
theorem scanDiffs_spec (g : Grid) (bound dyi : Int) (pos : ICoord)
    (block : Block) :
    ∀ (diffs : List Int) (removal : Removal),
      scanDiffs g bound dyi pos block diffs removal =
        match diffs.findSome? (fun diff =>
            if is_stable g ⟨pos.x, pos.y + dyi - diff⟩ block
            then some (dyi - diff) else none) with
        | some d => (Removal.insertWithDelta d, true)
        | none => (scanKeep bound dyi pos diffs removal, false) := by
  intro diffs
  induction diffs with
  | nil => intro removal; rfl
  | cons diff rest ih =>
    intro removal
    by_cases hs : is_stable g ⟨pos.x, pos.y + dyi - diff⟩ block = true
    · simp [scanDiffs, List.findSome?_cons, hs]
    · simp only [scanDiffs, List.findSome?_cons, hs, if_false, scanKeep,
        Bool.false_eq_true, if_neg hs]
      rw [ih]

/-- Helper: the keep/delete accumulator fold never produces an insert. -/
theorem scanKeep_keep_or_delete (bound dyi : Int) (pos : ICoord) :
    ∀ (diffs : List Int) (removal : Removal),
      (removal = Removal.keep ∨ removal = Removal.delete) →
      (scanKeep bound dyi pos diffs removal = Removal.keep ∨
        scanKeep bound dyi pos diffs removal = Removal.delete) := by
  intro diffs
  induction diffs with
  | nil => intro removal h; exact h
  | cons diff rest ih =>
    intro removal h
    rw [scanKeep]
    apply ih
    by_cases hc : pos.y + dyi - diff < bound
    · rw [if_pos hc]
      exact Or.inl rfl
    · rw [if_neg hc]
      exact h

/-- Helper: starting from a keep/delete accumulator, the member loop ends
in an insert exactly when scanning the members in order (with each member's
diffs from 0 upward) finds a first stable pair, and then the offset is that
first hit. -/
theorem scanBlocks_insert_iff (g : Grid) (bound dyi delta : Int) :
    ∀ (blocks : List (ICoord × Block)) (removal : Removal),
      (removal = Removal.keep ∨ removal = Removal.delete) →
      ∀ d : Int,
        (scanBlocks g bound dyi delta blocks removal =
            Removal.insertWithDelta d ↔
          blocks.findSome? (fun pb =>
            (diffsList delta).findSome? (fun diff =>
              if is_stable g ⟨pb.1.x, pb.1.y + dyi - diff⟩ pb.2
              then some (dyi - diff) else none)) = some d) := by
  intro blocks
  induction blocks with
  | nil =>
    intro removal h d
    rcases h with h | h <;> subst h <;> simp [scanBlocks, List.findSome?]
  | cons hd tl ih =>
    intro removal h d
    obtain ⟨pos, block⟩ := hd
    rw [scanBlocks, scanDiffs_spec]
    cases hfs : (diffsList delta).findSome? (fun diff =>
        if is_stable g ⟨pos.x, pos.y + dyi - diff⟩ block
        then some (dyi - diff) else none) with
    | some d0 =>
      simp only [List.findSome?_cons]
      rw [hfs]
      simp
    | none =>
      simp only [List.findSome?_cons]
      rw [hfs]
      exact ih (scanKeep bound dyi pos (diffsList delta) removal)
        (scanKeep_keep_or_delete bound dyi pos (diffsList delta) removal h) d

/-- C1 amended: a falling chunk's commit offset is determined by the first
hit in the code's visiting order — member blocks in reverse list order,
and for each member the crossed rows from the deepest (post-advance,
diff = 0) row upward — and the scan yields a commit exactly when such a
hit exists; the whole chunk is then committed at that single offset. -/
theorem chunkScan_insert_iff_codeFirstHit (g : Grid) (bound dyi delta : Int)
    (blocks : List (ICoord × Block)) (d : Int) :
    chunkScan g bound dyi delta blocks = Removal.insertWithDelta d ↔
      codeFirstHit g dyi delta blocks = some d := by
  unfold chunkScan codeFirstHit
  exact scanBlocks_insert_iff g bound dyi delta blocks.reverse Removal.delete
    (Or.inr rfl) d

/-- Counterexample to C1 as stated: for a one-block chunk falling past rows
1 and 2 of `gTwoRows`, both crossed rows satisfy the stability predicate;
the first crossed row scanning downward from the chunk's position gives
offset 1, but the code's scan (deepest row first) commits the chunk at
offset 2. -/
theorem scan_offset_not_first_row_downward :
    specFirstRowOffset gTwoRows 2 2 [(⟨0, 0⟩, blockEastOut)] = some 1 ∧
    chunkScan gTwoRows 100 2 2 [(⟨0, 0⟩, blockEastOut)] =
      Removal.insertWithDelta 2 ∧
    Removal.insertWithDelta 2 ≠ Removal.insertWithDelta 1 := by
  refine ⟨by decide, by decide, by decide⟩
